import Mathlib

/-!
Verification of `src/contents/scripts/plant_data.py` (BloomBuddy growth tracker).

The script keeps a JSON record `{last_opened, growth_stage, day_count, ...extra}`,
loads it (self-healing some malformed inputs), applies day-advance / watering
transitions, saves it back, and builds a JSON response payload.

Shallow embedding conventions:
* JSON values are modelled by the inductive `Json` (numeric values that occur in
  the record are integers; floats are not used by the script's record schema).
* A Python `dict` is modelled as an association list with unique keys, in
  insertion order; `dictInsert` is `d[k] = v` (update in place, else append) and
  `dictUpdate` is the `{** ...}` merge, later entries winning.
* Fallible Python code (code that can raise an uncaught exception) returns
  `Option`: `none` models an exception propagating out of the function.
* `date.today()` is passed explicitly as a `Date` argument.
-/

namespace BloomBuddy

/-- JSON values as they occur in the data file (numbers restricted to integers,
which is all the record schema uses). -/
inductive Json where
  | null : Json
  | bool : Bool → Json
  | int : Int → Json
  | str : String → Json
  | arr : List Json → Json
  | obj : List (String × Json) → Json

/-- A parsed JSON object / Python dict: association list, first binding wins on
lookup; the dicts produced by `json.loads` have unique keys. -/
abbrev Obj := List (String × Json)

/-- Lookup in a Python dict (`raw.get(k)` returning `none` for a missing key). -/
def lookup (k : String) : Obj → Option Json
  | [] => none
  | (k', v) :: rest => if k' = k then some v else lookup k rest

/-- `raw.get(k, dflt)`. -/
def getD (raw : Obj) (k : String) (dflt : Json) : Json :=
  (lookup k raw).getD dflt

/-- Python dict assignment `d[k] = v`: update the existing binding in place,
otherwise append at the end. -/
def dictInsert (m : Obj) (k : String) (v : Json) : Obj :=
  match m with
  | [] => [(k, v)]
  | (k', v') :: rest =>
    if k' = k then (k', v) :: rest else (k', v') :: dictInsert rest k v

/-- The dict-literal merge `{**m, **kvs}`: insert the entries of `kvs` into `m`
in order, so entries of `kvs` overwrite same-named entries of `m`. -/
def dictUpdate (m : Obj) (kvs : Obj) : Obj :=
  kvs.foldl (fun acc kv => dictInsert acc kv.1 kv.2) m

/-- A calendar date, as `datetime.date`: year-month-day. -/
structure Date where
  year : Nat
  month : Nat
  day : Nat
deriving DecidableEq, Repr

/-- Gregorian leap year, as `calendar.isleap` / `datetime`'s rule. -/
def isLeap (y : Nat) : Bool :=
  (y % 4 = 0 && ¬ y % 100 = 0) || y % 400 = 0

/-- Number of days in a month of a given year. -/
def daysInMonth (y m : Nat) : Nat :=
  if m = 2 then (if isLeap y then 29 else 28)
  else if m = 4 ∨ m = 6 ∨ m = 9 ∨ m = 11 then 30
  else 31

/-- A date `datetime.date` accepts: year in `[1, 9999]`, month in `[1, 12]`,
day in `[1, daysInMonth]`. -/
def Date.valid (d : Date) : Bool :=
  1 ≤ d.year && d.year ≤ 9999 && 1 ≤ d.month && d.month ≤ 12 &&
    1 ≤ d.day && d.day ≤ daysInMonth d.year d.month

/-- Leap days among years `1..y` (proleptic Gregorian), as in
`date.toordinal`. -/
def leapsBefore (y : Nat) : Nat :=
  y / 4 - y / 100 + y / 400

/-- Days in the months of year `y` strictly before month `m`. -/
def daysBeforeMonth (y m : Nat) : Nat :=
  (List.range (m - 1)).foldl (fun a i => a + daysInMonth y (i + 1)) 0

/-- `date.toordinal()`: day number with `0001-01-01` as day 1. -/
def Date.toOrdinal (d : Date) : Nat :=
  365 * (d.year - 1) + leapsBefore (d.year - 1) + daysBeforeMonth d.year d.month + d.day

/-- `(a - b).days` for two dates: difference of their ordinals. -/
def dateDiff (a b : Date) : Int :=
  (a.toOrdinal : Int) - (b.toOrdinal : Int)

/-- The decimal digit character for `n < 10`. -/
def digitChar (n : Nat) : Char :=
  Char.ofNat (48 + n)

/-- The `w` low decimal digits of `n`, zero padded (most significant first). -/
def padDigits : Nat → Nat → List Char
  | 0, _ => []
  | w + 1, n => padDigits w (n / 10) ++ [digitChar (n % 10)]

/-- `date.isoformat()`: `YYYY-MM-DD`, zero padded. -/
def formatDate (d : Date) : String :=
  ⟨padDigits 4 d.year ++ '-' :: (padDigits 2 d.month ++ '-' :: padDigits 2 d.day)⟩

/-- Value of a list of decimal digit characters. -/
def digitsToNat (cs : List Char) : Nat :=
  cs.foldl (fun a c => a * 10 + (c.toNat - 48)) 0

/-- `datetime.strptime(s, "%Y-%m-%d").date()` on a character list: exactly four
year digits, one or two month and day digits, nothing left over, and the
resulting date must be one `datetime.date` accepts; `none` models the
`ValueError` raised otherwise. -/
def parseDateChars (cs : List Char) : Option Date :=
  match cs.span (fun c => c.isDigit) with
  | (ys, '-' :: r1) =>
    match r1.span (fun c => c.isDigit) with
    | (ms, '-' :: r2) =>
      match r2.span (fun c => c.isDigit) with
      | (ds, rest) =>
        if rest = [] ∧ ys.length = 4 ∧ 1 ≤ ms.length ∧ ms.length ≤ 2 ∧
            1 ≤ ds.length ∧ ds.length ≤ 2 then
          if (Date.mk (digitsToNat ys) (digitsToNat ms) (digitsToNat ds)).valid then
            some (Date.mk (digitsToNat ys) (digitsToNat ms) (digitsToNat ds))
          else none
        else none
    | _ => none
  | _ => none

/-- `datetime.strptime(s, "%Y-%m-%d").date()`; `none` models `ValueError`. -/
def parseDate (s : String) : Option Date :=
  parseDateChars s.data

/-- `int(s)` on a string: strip surrounding whitespace, optional sign, then
decimal digits; `none` models the `ValueError` raised otherwise (digit-group
underscores are not modelled). -/
def pyIntOfStr (s : String) : Option Int :=
  let cs := (((s.data.dropWhile (fun c => c.isWhitespace)).reverse.dropWhile
    (fun c => c.isWhitespace)).reverse)
  match cs with
  | '+' :: rest =>
    if rest ≠ [] ∧ rest.all (fun c => c.isDigit) then some (digitsToNat rest) else none
  | '-' :: rest =>
    if rest ≠ [] ∧ rest.all (fun c => c.isDigit) then some (-(digitsToNat rest : Int)) else none
  | rest =>
    if rest ≠ [] ∧ rest.all (fun c => c.isDigit) then some (digitsToNat rest) else none

/-- Python's `int(x)` builtin on a JSON value: identity on integers, `True`/`False`
to `1`/`0`, numeric strings parsed; `none` models the `TypeError`/`ValueError`
raised on `None`, lists, dicts and non-numeric strings. -/
def pyInt : Json → Option Int
  | .int n => some n
  | .bool b => some (if b then 1 else 0)
  | .str s => pyIntOfStr s
  | _ => none

def STAGE_NAMES : List String := ["seed", "sprout", "leaf", "bloom"]

def MAX_STAGE_INDEX : Int := 3

/-- The persisted plant record (`@dataclass PlantState`). -/
structure PlantState where
  last_opened : Date
  growth_stage : Int
  day_count : Int
  extra : Obj

/-- The `last_opened` extraction in `PlantState.load`: `strptime` on the stored
string, with the `(TypeError, ValueError)` handler substituting `date.today()`
for a missing, non-string or unparseable value. -/
def healedLastOpened (raw : Obj) (today : Date) : Date :=
  match lookup "last_opened" raw with
  | some (.str s) => (parseDate s).getD today
  | _ => today

def known_keys : List String := ["last_opened", "growth_stage", "day_count"]

/-- The unrecognised fields captured by `PlantState.load`. -/
def extraOf (raw : Obj) : Obj :=
  raw.filter (fun kv => decide (kv.1 ∉ known_keys))

/-- The body of `PlantState.load` for a present, parseable record object `raw`:
`last_opened` self-heals to `today` when missing or malformed, but
`growth_stage` / `day_count` go through a bare `int(...)` whose exception is not
caught — `none` models that exception propagating. -/
def loadRecord (raw : Obj) (today : Date) : Option PlantState :=
  match pyInt (getD raw "growth_stage" (.int 0)) with
  | none => none
  | some growth_stage =>
    match pyInt (getD raw "day_count" (.int (max 1 (growth_stage + 1)))) with
    | none => none
    | some day_count =>
      some { last_opened := healedLastOpened raw today,
             growth_stage := max 0 (min growth_stage MAX_STAGE_INDEX),
             day_count := max 1 day_count,
             extra := extraOf raw }

/-- The state of the data file when the script starts. -/
inductive FileState where
  | absent : FileState
  | corrupt : FileState
  | content : Json → FileState

/-- `PlantState.load`: a missing or unparseable file yields the default state
(today, stage 0, day 1); a parsed object goes through `loadRecord`; a parsed
non-object makes `raw.get` raise `AttributeError` (modelled by `none`). -/
def load (fs : FileState) (today : Date) : Option PlantState :=
  match fs with
  | .absent => some { last_opened := today, growth_stage := 0, day_count := 1, extra := [] }
  | .corrupt => some { last_opened := today, growth_stage := 0, day_count := 1, extra := [] }
  | .content (.obj raw) => loadRecord raw today
  | .content _ => none

/-- `PlantState.save`: the serialized payload
`{"last_opened": ..., "growth_stage": ..., "day_count": ..., **self.extra}` —
a dict literal, so the `extra` entries are merged in last. -/
def save (s : PlantState) : Obj :=
  dictUpdate
    [("last_opened", .str (formatDate s.last_opened)),
     ("growth_stage", .int s.growth_stage),
     ("day_count", .int s.day_count)]
    s.extra

/-- `PlantState.advance_days`. -/
def advance_days (s : PlantState) (today : Date) (days : Int) : PlantState :=
  if days ≤ 0 then s
  else { s with growth_stage := min (s.growth_stage + days) MAX_STAGE_INDEX,
                day_count := s.day_count + days,
                last_opened := today }

/-- `PlantState.water`. -/
def water (s : PlantState) (today : Date) : PlantState :=
  let s' := if s.growth_stage < MAX_STAGE_INDEX
    then { s with growth_stage := s.growth_stage + 1 } else s
  { s' with day_count := max s'.day_count (s'.growth_stage + 1), last_opened := today }

/-- Python list indexing `xs[i]` on a string list: negative indices count from
the end; `none` models `IndexError`. -/
def pyIndex (xs : List String) (i : Int) : Option String :=
  if 0 ≤ i then xs.get? i.toNat
  else if 0 ≤ (xs.length : Int) + i then xs.get? ((xs.length : Int) + i).toNat
  else none

/-- The response payload built by `build_response`. -/
structure Response where
  stage : String
  stage_index : Int
  day : Int
  image : String
  is_wilted : Bool
  days_idle : Int
deriving DecidableEq, Repr

/-- `build_response(state, days_idle)`: `none` models the `IndexError` from
`STAGE_NAMES[state.growth_stage]` on an out-of-range stage. -/
def build_response (s : PlantState) (days_idle : Int) : Option Response :=
  match pyIndex STAGE_NAMES s.growth_stage with
  | none => none
  | some stage_name =>
    some { stage := stage_name,
           stage_index := s.growth_stage,
           day := s.day_count,
           image := "assets/plant_" ++ stage_name ++ ".png",
           is_wilted := decide (3 < days_idle),
           days_idle := days_idle }

/-- `main(argv)`: load, advance by the positive idle-day delta, water on the
flag, save, build the response from the pre-mutation idle-day count. Returns
the persisted record and the emitted response; `none` models an uncaught
exception (non-zero exit). -/
def runMain (fs : FileState) (today : Date) (waterFlag : Bool) :
    Option (Obj × Response) :=
  match load fs today with
  | none => none
  | some st0 =>
    let days_since_last_open := dateDiff today st0.last_opened
    let st1 := if 0 < days_since_last_open
      then advance_days st0 today days_since_last_open else st0
    let st2 := if waterFlag then water st1 today else st1
    match build_response st2 days_since_last_open with
    | none => none
    | some resp => some (save st2, resp)

/-- One public mutating call, with the `date.today()` it observes. -/
inductive Op where
  | advance : Int → Op
  | waterOp : Op

/-- Apply one call. -/
def applyOp (s : PlantState) : Op × Date → PlantState
  | (.advance d, today) => advance_days s today d
  | (.waterOp, today) => water s today

/-- Apply a sequence of `advance_days` / `water` calls. -/
def applyOps (s : PlantState) (ops : List (Op × Date)) : PlantState :=
  ops.foldl applyOp s

/-! ### Sample inputs used by the witness theorems -/

def d0 : Date := ⟨2024, 1, 1⟩

def d1 : Date := ⟨2024, 1, 2⟩

def sampleState : PlantState := ⟨d0, 1, 2, []⟩

def sampleBloom : PlantState := ⟨d0, 3, 4, []⟩

/-- A state whose `extra` collides with a known key (only constructible by
hand: `load` never produces one). -/
def collidingState : PlantState := ⟨d0, 2, 5, [("growth_stage", .int 7)]⟩

/-! ### Basic lemmas -/

lemma applyOps_nil (s : PlantState) : applyOps s [] = s := rfl

lemma applyOps_cons (s : PlantState) (o : Op × Date) (ops : List (Op × Date)) :
    applyOps s (o :: ops) = applyOps (applyOp s o) ops := rfl

lemma applyOp_day_count_mono (s : PlantState) (o : Op × Date) :
    s.day_count ≤ (applyOp s o).day_count := by
  obtain ⟨lo, gs, dc, ex⟩ := s
  obtain ⟨op, t⟩ := o
  cases op with
  | advance d =>
    simp only [applyOp, advance_days]
    split
    · exact le_refl _
    · dsimp only
      omega
  | waterOp =>
    simp only [applyOp, water, MAX_STAGE_INDEX]
    split <;> dsimp only <;> omega

lemma applyOp_growth_bounds (s : PlantState) (o : Op × Date)
    (h0 : 0 ≤ s.growth_stage) (h3 : s.growth_stage ≤ 3) :
    0 ≤ (applyOp s o).growth_stage ∧ (applyOp s o).growth_stage ≤ 3 := by
  obtain ⟨lo, gs, dc, ex⟩ := s
  obtain ⟨op, t⟩ := o
  simp only [PlantState.growth_stage] at h0 h3
  cases op with
  | advance d =>
    simp only [applyOp, advance_days, MAX_STAGE_INDEX]
    split
    · exact ⟨h0, h3⟩
    · dsimp only
      omega
  | waterOp =>
    simp only [applyOp, water, MAX_STAGE_INDEX]
    split <;> dsimp only <;> omega

lemma applyOp_extra (s : PlantState) (o : Op × Date) :
    (applyOp s o).extra = s.extra := by
  obtain ⟨lo, gs, dc, ex⟩ := s
  obtain ⟨op, t⟩ := o
  cases op with
  | advance d =>
    simp only [applyOp, advance_days]
    split <;> rfl
  | waterOp =>
    simp only [applyOp, water]
    split <;> rfl

lemma applyOps_day_count_mono (s : PlantState) (ops : List (Op × Date)) :
    s.day_count ≤ (applyOps s ops).day_count := by
  induction ops generalizing s with
  | nil => exact le_refl _
  | cons o rest ih =>
    rw [applyOps_cons]
    exact le_trans (applyOp_day_count_mono s o) (ih (applyOp s o))

/-- Inversion of a successful `loadRecord`. -/
lemma loadRecord_eq {raw : Obj} {today : Date} {s : PlantState}
    (h : loadRecord raw today = some s) :
    ∃ g d, pyInt (getD raw "growth_stage" (.int 0)) = some g ∧
      pyInt (getD raw "day_count" (.int (max 1 (g + 1)))) = some d ∧
      s = { last_opened := healedLastOpened raw today,
            growth_stage := max 0 (min g 3),
            day_count := max 1 d,
            extra := extraOf raw } := by
  rw [loadRecord] at h
  split at h
  · exact absurd h (by simp)
  · rename_i g hg
    split at h
    · exact absurd h (by simp)
    · rename_i d hd
      simp only [Option.some.injEq, MAX_STAGE_INDEX] at h
      exact ⟨g, d, hg, hd, h.symm⟩

lemma load_bounds {fs : FileState} {today : Date} {s : PlantState}
    (h : load fs today = some s) :
    0 ≤ s.growth_stage ∧ s.growth_stage ≤ 3 ∧ 1 ≤ s.day_count := by
  cases fs with
  | absent =>
    simp only [load, Option.some.injEq] at h
    rw [← h]; refine ⟨by norm_num, by norm_num, by norm_num⟩
  | corrupt =>
    simp only [load, Option.some.injEq] at h
    rw [← h]; refine ⟨by norm_num, by norm_num, by norm_num⟩
  | content j =>
    cases j with
    | obj raw =>
      obtain ⟨g, d, _, _, rfl⟩ := loadRecord_eq (h : loadRecord raw today = some s)
      refine ⟨?_, ?_, ?_⟩ <;> dsimp only <;> omega
    | null => exact absurd h (by simp [load])
    | bool b => exact absurd h (by simp [load])
    | int n => exact absurd h (by simp [load])
    | str v => exact absurd h (by simp [load])
    | arr xs => exact absurd h (by simp [load])

/-! ### Date formatting and parsing lemmas -/

lemma digitChar_isDigit {n : Nat} (h : n < 10) : (digitChar n).isDigit = true := by
  interval_cases n <;> decide

lemma digitChar_toNat {n : Nat} (h : n < 10) : (digitChar n).toNat = 48 + n := by
  interval_cases n <;> decide

lemma padDigits_isDigit (w : Nat) :
    ∀ n : Nat, ∀ c ∈ padDigits w n, c.isDigit = true := by
  induction w with
  | zero =>
    intro n c hc
    simp [padDigits] at hc
  | succ w ih =>
    intro n c hc
    rw [padDigits] at hc
    rcases List.mem_append.mp hc with hc | hc
    · exact ih (n / 10) c hc
    · rw [List.mem_singleton] at hc
      subst hc
      exact digitChar_isDigit (Nat.mod_lt n (by norm_num))

lemma padDigits_length (w : Nat) : ∀ n : Nat, (padDigits w n).length = w := by
  induction w with
  | zero => intro n; rfl
  | succ w ih =>
    intro n
    rw [padDigits, List.length_append, ih]
    simp

lemma foldl_padDigits (w : Nat) :
    ∀ n a : Nat, n < 10 ^ w →
      (padDigits w n).foldl (fun a c => a * 10 + (c.toNat - 48)) a = a * 10 ^ w + n := by
  induction w with
  | zero =>
    intro n a h
    simp only [pow_zero, Nat.lt_one_iff] at h
    subst h
    simp [padDigits]
  | succ w ih =>
    intro n a h
    have h10 : (10 : Nat) ^ (w + 1) = 10 ^ w * 10 := pow_succ 10 w
    have hdiv : n / 10 < 10 ^ w := by omega
    rw [padDigits, List.foldl_append, ih (n / 10) a hdiv]
    simp only [List.foldl_cons, List.foldl_nil]
    rw [digitChar_toNat (Nat.mod_lt n (by norm_num)), h10, ← mul_assoc]
    omega

lemma digitsToNat_padDigits {w n : Nat} (h : n < 10 ^ w) :
    digitsToNat (padDigits w n) = n := by
  have := foldl_padDigits w n 0 h
  simpa [digitsToNat] using this

lemma takeWhile_all_append (p : Char → Bool) (xs ys : List Char)
    (hx : ∀ x ∈ xs, p x = true) :
    (xs ++ ys).takeWhile p = xs ++ ys.takeWhile p := by
  induction xs with
  | nil => rfl
  | cons x rest ih =>
    rw [List.cons_append, List.takeWhile_cons, hx x (List.mem_cons_self _ _),
      ih (fun a ha => hx a (List.mem_cons_of_mem _ ha))]
    rfl

lemma dropWhile_all_append (p : Char → Bool) (xs ys : List Char)
    (hx : ∀ x ∈ xs, p x = true) :
    (xs ++ ys).dropWhile p = ys.dropWhile p := by
  induction xs with
  | nil => rfl
  | cons x rest ih =>
    rw [List.cons_append, List.dropWhile_cons, hx x (List.mem_cons_self _ _)]
    exact ih (fun a ha => hx a (List.mem_cons_of_mem _ ha))

/-- `span` over all-digit characters followed by a non-digit splits exactly
there. -/
lemma span_digits_append (xs : List Char) (c : Char) (ys : List Char)
    (hx : ∀ x ∈ xs, x.isDigit = true) (hc : c.isDigit = false) :
    (xs ++ c :: ys).span (fun ch => ch.isDigit) = (xs, c :: ys) := by
  rw [List.span_eq_take_drop, takeWhile_all_append _ _ _ hx,
    dropWhile_all_append _ _ _ hx, List.takeWhile_cons, List.dropWhile_cons, hc]
  simp

lemma span_digits_all (xs : List Char) (hx : ∀ x ∈ xs, x.isDigit = true) :
    xs.span (fun ch => ch.isDigit) = (xs, []) := by
  have := span_digits_append xs ' ' [] hx (by decide)
  rw [List.span_eq_take_drop] at this ⊢
  rw [takeWhile_all_append _ _ _ hx, dropWhile_all_append _ _ _ hx] at this
  have h1 : xs.takeWhile (fun ch => ch.isDigit) = xs :=
    List.takeWhile_eq_self_iff.mpr hx
  have h2 : xs.dropWhile (fun ch => ch.isDigit) = [] :=
    List.dropWhile_eq_nil_iff.mpr hx
  rw [h1, h2]

lemma daysInMonth_le_31 (y m : Nat) : daysInMonth y m ≤ 31 := by
  rw [daysInMonth]
  split
  · split <;> norm_num
  · split <;> norm_num

/-- The inverse direction `strptime ∘ isoformat = id` on valid dates: parsing
the canonical zero-padded output recovers the date. -/
lemma parse_format {d : Date} (h : d.valid = true) :
    parseDate (formatDate d) = some d := by
  obtain ⟨y, m, dd⟩ := d
  have hb : 1 ≤ y ∧ y ≤ 9999 ∧ 1 ≤ m ∧ m ≤ 12 ∧ 1 ≤ dd ∧ dd ≤ daysInMonth y m := by
    rw [Date.valid] at h
    simp only [Bool.and_eq_true, decide_eq_true_eq] at h
    exact ⟨h.1.1.1.1.1, h.1.1.1.1.2, h.1.1.1.2, h.1.1.2, h.1.2, h.2⟩
  have hdd31 : dd ≤ 31 := le_trans hb.2.2.2.2.2 (daysInMonth_le_31 y m)
  have hY : ∀ c ∈ padDigits 4 y, c.isDigit = true := padDigits_isDigit 4 y
  have hM : ∀ c ∈ padDigits 2 m, c.isDigit = true := padDigits_isDigit 2 m
  have hD : ∀ c ∈ padDigits 2 dd, c.isDigit = true := padDigits_isDigit 2 dd
  have hs1 : (padDigits 4 y ++ '-' :: (padDigits 2 m ++ '-' :: padDigits 2 dd)).span
      (fun ch => ch.isDigit) = (padDigits 4 y, '-' :: (padDigits 2 m ++ '-' :: padDigits 2 dd)) :=
    span_digits_append _ _ _ hY (by decide)
  have hs2 : (padDigits 2 m ++ '-' :: padDigits 2 dd).span (fun ch => ch.isDigit) =
      (padDigits 2 m, '-' :: padDigits 2 dd) :=
    span_digits_append _ _ _ hM (by decide)
  have hs3 : (padDigits 2 dd).span (fun ch => ch.isDigit) = (padDigits 2 dd, []) :=
    span_digits_all _ hD
  rw [parseDate, formatDate]
  show parseDateChars (padDigits 4 y ++ '-' :: (padDigits 2 m ++ '-' :: padDigits 2 dd)) = _
  rw [parseDateChars]
  simp only [hs1, hs2, hs3, padDigits_length]
  rw [if_pos (by norm_num)]
  rw [digitsToNat_padDigits (by norm_num; omega),
    digitsToNat_padDigits (show m < 10 ^ 2 by norm_num; omega),
    digitsToNat_padDigits (show dd < 10 ^ 2 by norm_num; omega)]
  rw [if_pos h]

/-- `parseDate` only returns dates that pass `datetime.date`'s validation. -/
lemma parseDate_valid {s : String} {d : Date} (h : parseDate s = some d) :
    d.valid = true := by
  rw [parseDate, parseDateChars] at h
  split at h
  case h_2 => exact absurd h (by simp)
  split at h
  case h_2 => exact absurd h (by simp)
  split at h
  split at h
  case isFalse => exact absurd h (by simp)
  split at h
  case isFalse => exact absurd h (by simp)
  rename_i hvalid
  simp only [Option.some.injEq] at h
  rw [← h]
  exact hvalid

/-- Whatever `healedLastOpened` returns is a valid date, provided today is. -/
lemma healedLastOpened_valid {raw : Obj} {today : Date}
    (ht : today.valid = true) : (healedLastOpened raw today).valid = true := by
  rw [healedLastOpened]
  split
  · rename_i ls _
    rcases hp : parseDate ls with _ | d
    · simpa using ht
    · simpa using parseDate_valid hp
  · exact ht

/-! ### Dictionary lemmas -/

lemma lookup_dictInsert_self (m : Obj) (k : String) (v : Json) :
    lookup k (dictInsert m k v) = some v := by
  induction m with
  | nil => simp [dictInsert, lookup]
  | cons kv rest ih =>
    obtain ⟨k', v'⟩ := kv
    by_cases h : k' = k <;> simp [dictInsert, lookup, h, ih]

lemma lookup_dictInsert_ne (m : Obj) (k k' : String) (v : Json) (h : k' ≠ k) :
    lookup k (dictInsert m k' v) = lookup k m := by
  induction m with
  | nil => simp [dictInsert, lookup, h]
  | cons kv rest ih =>
    obtain ⟨k'', v''⟩ := kv
    by_cases h2 : k'' = k' <;> simp [dictInsert, lookup, h, h2, ih]

lemma dictUpdate_cons (m : Obj) (k : String) (v : Json) (rest : Obj) :
    dictUpdate m ((k, v) :: rest) = dictUpdate (dictInsert m k v) rest := rfl

lemma lookup_dictUpdate_of_all_ne (m ex : Obj) (k : String)
    (h : ∀ kv ∈ ex, kv.1 ≠ k) :
    lookup k (dictUpdate m ex) = lookup k m := by
  induction ex generalizing m with
  | nil => rfl
  | cons kv rest ih =>
    obtain ⟨k', v'⟩ := kv
    rw [dictUpdate_cons, ih _ (fun kv hkv => h kv (List.mem_cons_of_mem _ hkv)),
      lookup_dictInsert_ne _ _ _ _ (h (k', v') (List.mem_cons_self _ _))]

lemma lookup_eq_none_iff (m : Obj) (k : String) :
    lookup k m = none ↔ ∀ kv ∈ m, kv.1 ≠ k := by
  induction m with
  | nil => simp [lookup]
  | cons kv rest ih =>
    obtain ⟨k', v'⟩ := kv
    by_cases h : k' = k <;> simp [lookup, h, ih]

lemma lookup_dictUpdate_of_lookup (m ex : Obj) (k : String) (v : Json)
    (hnd : (ex.map Prod.fst).Nodup) (h : lookup k ex = some v) :
    lookup k (dictUpdate m ex) = some v := by
  induction ex generalizing m with
  | nil => simp [lookup] at h
  | cons kv rest ih =>
    obtain ⟨k', v'⟩ := kv
    simp only [List.map_cons, List.nodup_cons] at hnd
    rw [dictUpdate_cons]
    by_cases hk : k' = k
    · subst hk
      rw [lookup, if_pos rfl, Option.some.injEq] at h
      subst h
      rw [lookup_dictUpdate_of_all_ne]
      · exact lookup_dictInsert_self m k' v'
      · intro kv hkv heq
        apply hnd.1
        rw [← heq]
        exact List.mem_map_of_mem Prod.fst hkv
    · rw [lookup, if_neg hk] at h
      exact ih (dictInsert m k' v') hnd.2 h

lemma lookup_append_of_some {a : Obj} (b : Obj) {k : String} {v : Json}
    (h : lookup k a = some v) : lookup k (a ++ b) = some v := by
  induction a with
  | nil => simp [lookup] at h
  | cons kv rest ih =>
    obtain ⟨k', v'⟩ := kv
    rw [List.cons_append, lookup]
    rw [lookup] at h
    by_cases hk : k' = k
    · rw [if_pos hk] at h ⊢
      exact h
    · rw [if_neg hk] at h ⊢
      exact ih h

lemma lookup_append_of_none {a : Obj} (b : Obj) {k : String}
    (h : lookup k a = none) : lookup k (a ++ b) = lookup k b := by
  induction a with
  | nil => rfl
  | cons kv rest ih =>
    obtain ⟨k', v'⟩ := kv
    rw [List.cons_append, lookup]
    rw [lookup] at h
    by_cases hk : k' = k
    · rw [if_pos hk] at h
      exact absurd h (by simp)
    · rw [if_neg hk] at h ⊢
      exact ih h

lemma dictInsert_of_not_mem (m : Obj) (k : String) (v : Json)
    (h : lookup k m = none) : dictInsert m k v = m ++ [(k, v)] := by
  induction m with
  | nil => rfl
  | cons kv rest ih =>
    obtain ⟨k', v'⟩ := kv
    rw [lookup] at h
    by_cases hk : k' = k
    · simp [if_pos hk] at h
    · rw [if_neg hk] at h
      simp [dictInsert, hk, ih h]

lemma dictUpdate_of_disjoint (m ex : Obj) (hnd : (ex.map Prod.fst).Nodup)
    (h : ∀ kv ∈ ex, lookup kv.1 m = none) : dictUpdate m ex = m ++ ex := by
  induction ex generalizing m with
  | nil => simp [dictUpdate]
  | cons kv rest ih =>
    obtain ⟨k', v'⟩ := kv
    simp only [List.map_cons, List.nodup_cons] at hnd
    rw [dictUpdate_cons, dictInsert_of_not_mem m k' v' (h (k', v') (List.mem_cons_self _ _)),
      ih _ hnd.2, List.append_assoc]
    · rfl
    · intro kv hkv
      rw [lookup_append_of_none _ (h kv (List.mem_cons_of_mem _ hkv))]
      rw [lookup_eq_none_iff]
      intro kv2 hkv2 heq
      simp only [List.mem_singleton] at hkv2
      subst hkv2
      apply hnd.1
      rw [show k' = kv.1 from heq]
      exact List.mem_map_of_mem Prod.fst hkv

/-- Every key of `extraOf raw` is outside the known keys. -/
lemma extraOf_not_known {raw : Obj} {kv : String × Json} (h : kv ∈ extraOf raw) :
    kv.1 ∉ known_keys := by
  rw [extraOf, List.mem_filter] at h
  exact of_decide_eq_true h.2

lemma lookup_extraOf_of_known (raw : Obj) (k : String) (hk : k ∈ known_keys) :
    lookup k (extraOf raw) = none := by
  rw [lookup_eq_none_iff]
  intro kv hkv heq
  exact extraOf_not_known hkv (heq.symm ▸ hk)

lemma lookup_cons (k k' : String) (v : Json) (m : Obj) :
    lookup k ((k', v) :: m) = if k' = k then some v else lookup k m := rfl

lemma nodup_extraOf {raw : Obj} (h : (raw.map Prod.fst).Nodup) :
    ((extraOf raw).map Prod.fst).Nodup :=
  List.Nodup.sublist (List.Sublist.map Prod.fst (List.filter_sublist raw)) h

/-- Loading the record just saved from a well-formed state recovers the state
exactly. -/
lemma save_load_inverse (s : PlantState) (t2 : Date)
    (hlo : s.last_opened.valid = true)
    (hg0 : 0 ≤ s.growth_stage) (hg3 : s.growth_stage ≤ 3)
    (hd : 1 ≤ s.day_count)
    (hnd : (s.extra.map Prod.fst).Nodup)
    (hkeys : ∀ kv ∈ s.extra, kv.1 ∉ known_keys) :
    loadRecord (save s) t2 = some s := by
  obtain ⟨lo, gs, dc, ex⟩ := s
  dsimp only at hlo hg0 hg3 hd hnd hkeys
  have hdisj : ∀ kv ∈ ex,
      lookup kv.1 [("last_opened", Json.str (formatDate lo)),
        ("growth_stage", Json.int gs), ("day_count", Json.int dc)] = none := by
    intro kv hkv
    have hk := hkeys kv hkv
    simp only [known_keys, List.mem_cons, List.not_mem_nil, or_false, not_or] at hk
    rw [lookup_cons, if_neg (fun e => hk.1 e.symm), lookup_cons,
      if_neg (fun e => hk.2.1 e.symm), lookup_cons, if_neg (fun e => hk.2.2 e.symm)]
    rfl
  have hsave : save ⟨lo, gs, dc, ex⟩ =
      [("last_opened", Json.str (formatDate lo)), ("growth_stage", Json.int gs),
        ("day_count", Json.int dc)] ++ ex :=
    dictUpdate_of_disjoint _ ex hnd hdisj
  have hpg : pyInt (getD (save ⟨lo, gs, dc, ex⟩) "growth_stage" (.int 0)) = some gs := by
    rw [getD, hsave, lookup_append_of_some _
      (by rw [lookup_cons, if_neg (by decide), lookup_cons, if_pos rfl])]
    rfl
  have hpd : pyInt (getD (save ⟨lo, gs, dc, ex⟩) "day_count"
      (.int (max 1 (gs + 1)))) = some dc := by
    rw [getD, hsave, lookup_append_of_some _
      (by rw [lookup_cons, if_neg (by decide), lookup_cons, if_neg (by decide),
        lookup_cons, if_pos rfl])]
    rfl
  have hheal : healedLastOpened (save ⟨lo, gs, dc, ex⟩) t2 = lo := by
    rw [healedLastOpened, hsave, lookup_append_of_some _
      (by rw [lookup_cons, if_pos rfl])]
    show (parseDate (formatDate lo)).getD t2 = lo
    rw [parse_format hlo]
    rfl
  have hbase : List.filter (fun kv => decide (kv.1 ∉ known_keys))
      [("last_opened", Json.str (formatDate lo)), ("growth_stage", Json.int gs),
        ("day_count", Json.int dc)] = [] := rfl
  have hextra : extraOf (save ⟨lo, gs, dc, ex⟩) = ex := by
    rw [extraOf, hsave, List.filter_append, hbase, List.nil_append]
    exact List.filter_eq_self.mpr (fun kv hkv => decide_eq_true (hkeys kv hkv))
  simp only [loadRecord, hpg, hpd, hheal, hextra, MAX_STAGE_INDEX,
    Option.some.injEq, PlantState.mk.injEq]
  refine ⟨trivial, ?_, ?_, trivial⟩ <;> omega

/-! ### Claim theorems: state transitions -/

/-- C5: for every `PlantState` and integer `days`, `advance_days` is a no-op
when `days ≤ 0`; when `days > 0` it sets `growth_stage` to
`min (growth_stage + days) 3`, increases `day_count` by exactly `days`
(uncapped), and sets `last_opened` to today's date. -/
theorem advance_days_spec (s : PlantState) (today : Date) (days : Int) :
    (days ≤ 0 → advance_days s today days = s) ∧
    (0 < days →
      advance_days s today days =
        { last_opened := today,
          growth_stage := min (s.growth_stage + days) 3,
          day_count := s.day_count + days,
          extra := s.extra }) := by
  constructor
  · intro h
    simp [advance_days, h]
  · intro h
    rw [advance_days, if_neg (by omega)]
    rfl

/-- Witness for C5 at concrete inputs: `advance_days` with a non-positive
delta is the identity, and with delta 5 from stage 1 it clamps the stage to 3
and adds exactly 5 days. -/
theorem advance_days_spec_witness :
    advance_days sampleState d1 (-1) = sampleState ∧
    advance_days sampleState d1 5 =
      { last_opened := d1, growth_stage := min (1 + 5) 3, day_count := 2 + 5,
        extra := [] } :=
  ⟨(advance_days_spec sampleState d1 (-1)).1 (by norm_num),
   (advance_days_spec sampleState d1 5).2 (by norm_num)⟩

/-- C6: `water()` increments `growth_stage` by exactly 1 below stage 3 and
leaves it at 3 otherwise; in both cases the new `day_count` is
`max day_count (new growth_stage + 1)`, so it never decreases and ends at
least `new growth_stage + 1`; `last_opened` becomes today's date. -/
theorem water_spec (s : PlantState) (today : Date) :
    (s.growth_stage < 3 → (water s today).growth_stage = s.growth_stage + 1) ∧
    (s.growth_stage = 3 → (water s today).growth_stage = 3) ∧
    (water s today).day_count = max s.day_count ((water s today).growth_stage + 1) ∧
    s.day_count ≤ (water s today).day_count ∧
    (water s today).growth_stage + 1 ≤ (water s today).day_count ∧
    (water s today).last_opened = today := by
  obtain ⟨lo, gs, dc, ex⟩ := s
  simp only [water, MAX_STAGE_INDEX]
  split <;> dsimp only <;>
    refine ⟨fun h => ?_, fun h => ?_, ?_, ?_, ?_, ?_⟩ <;> first | rfl | trivial | omega

/-- Witness for C6 at concrete inputs: watering at stage 1 reaches stage 2,
and watering at stage 3 stays at stage 3. -/
theorem water_spec_witness :
    (water sampleState d1).growth_stage = sampleState.growth_stage + 1 ∧
    (water sampleBloom d1).growth_stage = 3 :=
  ⟨(water_spec sampleState d1).1 (by norm_num [sampleState, d1]),
   (water_spec sampleBloom d1).2.1 (by norm_num [sampleBloom, d1])⟩

/-- C9: starting from `day_count ≥ 1`, any sequence of `advance_days` and
`water` calls leaves `day_count` at least its initial value, and at least 1. -/
theorem day_count_monotone (s : PlantState) (ops : List (Op × Date))
    (h : 1 ≤ s.day_count) :
    s.day_count ≤ (applyOps s ops).day_count ∧ 1 ≤ (applyOps s ops).day_count :=
  ⟨applyOps_day_count_mono s ops, le_trans h (applyOps_day_count_mono s ops)⟩

/-- Witness for C9 at concrete inputs: a water call followed by a 3-day
advance never decreases `day_count` and keeps it at least 1. -/
theorem day_count_monotone_witness :
    sampleState.day_count ≤
      (applyOps sampleState [(Op.waterOp, d1), (Op.advance 3, d1)]).day_count ∧
    1 ≤ (applyOps sampleState [(Op.waterOp, d1), (Op.advance 3, d1)]).day_count :=
  day_count_monotone sampleState [(Op.waterOp, d1), (Op.advance 3, d1)]
    (by norm_num [sampleState])

/-- C3: any state produced by `load()` has `growth_stage` in `[0, 3]` (the
clamp), and the bound is preserved by every later sequence of `advance_days`
and `water` calls. -/
theorem growth_stage_invariant (fs : FileState) (today : Date) (s : PlantState)
    (ops : List (Op × Date)) (h : load fs today = some s) :
    0 ≤ (applyOps s ops).growth_stage ∧ (applyOps s ops).growth_stage ≤ 3 := by
  obtain ⟨h0, h3, -⟩ := load_bounds h
  clear h
  induction ops generalizing s with
  | nil => exact ⟨h0, h3⟩
  | cons o rest ih =>
    rw [applyOps_cons]
    obtain ⟨g0, g3⟩ := applyOp_growth_bounds s o h0 h3
    exact ih (applyOp s o) g0 g3

/-- Witness for C3 at concrete inputs: loading a record that stores stage 99
clamps into `[0, 3]`, and a later 10-day advance keeps the bound. -/
theorem growth_stage_invariant_witness :
    0 ≤ (applyOps ⟨d0, 3, 100, []⟩ [(Op.advance 10, d1)]).growth_stage ∧
    (applyOps ⟨d0, 3, 100, []⟩ [(Op.advance 10, d1)]).growth_stage ≤ 3 :=
  growth_stage_invariant (.content (.obj [("growth_stage", .int 99)])) d0
    ⟨d0, 3, 100, []⟩ [(Op.advance 10, d1)] (by rfl)

/-- C8: for `growth_stage` in `[0, 3]`, `build_response` is pure and returns
exactly the payload whose `stage` is the stage name at index `growth_stage`,
`stage_index` is `growth_stage`, `day` is `day_count`, `image` is
`assets/plant_<stage>.png`, `is_wilted` is true iff `days_idle > 3`, and
`days_idle` is the input. -/
theorem build_response_spec (s : PlantState) (di : Int)
    (h0 : 0 ≤ s.growth_stage) (h3 : s.growth_stage ≤ 3) :
    ∃ nm, STAGE_NAMES.get? s.growth_stage.toNat = some nm ∧
      build_response s di =
        some { stage := nm, stage_index := s.growth_stage, day := s.day_count,
               image := "assets/plant_" ++ nm ++ ".png",
               is_wilted := decide (3 < di), days_idle := di } := by
  obtain ⟨lo, gs, dc, ex⟩ := s
  simp only [PlantState.growth_stage] at h0 h3
  interval_cases gs
  · exact ⟨"seed", rfl, rfl⟩
  · exact ⟨"sprout", rfl, rfl⟩
  · exact ⟨"leaf", rfl, rfl⟩
  · exact ⟨"bloom", rfl, rfl⟩

/-- Witness for C8 at a concrete input: a stage-1 plant that was idle 4 days
renders as a wilted sprout. -/
theorem build_response_spec_witness :
    ∃ nm, STAGE_NAMES.get? sampleState.growth_stage.toNat = some nm ∧
      build_response sampleState 4 =
        some { stage := nm, stage_index := sampleState.growth_stage,
               day := sampleState.day_count,
               image := "assets/plant_" ++ nm ++ ".png",
               is_wilted := decide (3 < (4 : Int)), days_idle := 4 } :=
  build_response_spec sampleState 4 (by norm_num [sampleState]) (by norm_num [sampleState])

/-! ### Claim theorems: serialization -/

lemma applyOps_extra (s : PlantState) (ops : List (Op × Date)) :
    (applyOps s ops).extra = s.extra := by
  induction ops generalizing s with
  | nil => rfl
  | cons o rest ih =>
    rw [applyOps_cons, ih, applyOp_extra]

lemma load_extra_no_known {fs : FileState} {today : Date} {s : PlantState}
    (h : load fs today = some s) :
    ∀ k ∈ known_keys, lookup k s.extra = none := by
  cases fs with
  | absent =>
    simp only [load, Option.some.injEq] at h
    rw [← h]
    intro k _
    rfl
  | corrupt =>
    simp only [load, Option.some.injEq] at h
    rw [← h]
    intro k _
    rfl
  | content j =>
    cases j with
    | obj raw =>
      obtain ⟨g, d, -, -, rfl⟩ := loadRecord_eq (h : loadRecord raw today = some s)
      exact fun k hk => lookup_extraOf_of_known raw k hk
    | null => exact absurd h (by simp [load])
    | bool b => exact absurd h (by simp [load])
    | int n => exact absurd h (by simp [load])
    | str v => exact absurd h (by simp [load])
    | arr xs => exact absurd h (by simp [load])

/-- C10: a loaded state's `extra` holds none of the keys `last_opened`,
`growth_stage`, `day_count`; `advance_days` and `water` never touch `extra`;
hence for every reachable state the merge in `save()` cannot collide with the
known keys, whose serialized values are the state's own fields. -/
theorem extra_never_collides (fs : FileState) (today : Date) (s : PlantState)
    (ops : List (Op × Date)) (h : load fs today = some s) :
    (applyOps s ops).extra = s.extra ∧
    (∀ k ∈ known_keys, lookup k s.extra = none) ∧
    lookup "last_opened" (save (applyOps s ops)) =
      some (.str (formatDate (applyOps s ops).last_opened)) ∧
    lookup "growth_stage" (save (applyOps s ops)) =
      some (.int (applyOps s ops).growth_stage) ∧
    lookup "day_count" (save (applyOps s ops)) =
      some (.int (applyOps s ops).day_count) := by
  have hex := applyOps_extra s ops
  have hsx := load_extra_no_known h
  have hne : ∀ k ∈ known_keys, ∀ kv ∈ (applyOps s ops).extra, kv.1 ≠ k := by
    intro k hk
    rw [hex]
    exact (lookup_eq_none_iff s.extra k).mp (hsx k hk)
  refine ⟨hex, hsx, ?_, ?_, ?_⟩ <;>
    rw [save, lookup_dictUpdate_of_all_ne _ _ _ (hne _ (by decide))] <;> rfl

/-- Witness for C10 at concrete inputs: load a record with one unknown field,
then water once. -/
theorem extra_never_collides_witness :
    (applyOps ⟨d0, 0, 1, [("color", .str "red")]⟩ [(Op.waterOp, d1)]).extra =
      (⟨d0, 0, 1, [("color", .str "red")]⟩ : PlantState).extra ∧
    (∀ k ∈ known_keys,
      lookup k (⟨d0, 0, 1, [("color", .str "red")]⟩ : PlantState).extra = none) ∧
    lookup "last_opened"
        (save (applyOps ⟨d0, 0, 1, [("color", .str "red")]⟩ [(Op.waterOp, d1)])) =
      some (.str (formatDate
        (applyOps ⟨d0, 0, 1, [("color", .str "red")]⟩ [(Op.waterOp, d1)]).last_opened)) ∧
    lookup "growth_stage"
        (save (applyOps ⟨d0, 0, 1, [("color", .str "red")]⟩ [(Op.waterOp, d1)])) =
      some (.int (applyOps ⟨d0, 0, 1, [("color", .str "red")]⟩ [(Op.waterOp, d1)]).growth_stage) ∧
    lookup "day_count"
        (save (applyOps ⟨d0, 0, 1, [("color", .str "red")]⟩ [(Op.waterOp, d1)])) =
      some (.int (applyOps ⟨d0, 0, 1, [("color", .str "red")]⟩ [(Op.waterOp, d1)]).day_count) :=
  extra_never_collides (.content (.obj [("color", .str "red")])) d0
    ⟨d0, 0, 1, [("color", .str "red")]⟩ [(Op.waterOp, d1)] (by rfl)

/-- C1 counterexample: for the concrete state whose `extra` maps
`"growth_stage"` to `7` while the field is `2`, the serialized record holds
the `extra` value, not the state's own field — the known key does NOT take
precedence. -/
theorem save_known_key_overwritten :
    lookup "growth_stage" (save collidingState) ≠
      some (.int collidingState.growth_stage) := by
  intro h
  have e : lookup "growth_stage" (save collidingState) = some (.int 7) := rfl
  rw [e] at h
  simp only [Option.some.injEq, Json.int.injEq, collidingState] at h
  exact absurd h (by norm_num)

/-- C1 amended: in the record serialized by `save()`, an `extra` entry takes
precedence over a same-named known key — for any key bound in the state's
`extra` mapping (which has unique keys, being a Python dict), the payload
holds the `extra` value. -/
theorem save_extra_precedence (s : PlantState) (k : String) (v : Json)
    (hnd : (s.extra.map Prod.fst).Nodup) (h : lookup k s.extra = some v) :
    lookup k (save s) = some v :=
  lookup_dictUpdate_of_lookup _ s.extra k v hnd h

/-- Witness for the amended C1 at a concrete input: the colliding state's
serialized `growth_stage` is the `extra` value 7. -/
theorem save_extra_precedence_witness :
    lookup "growth_stage" (save collidingState) = some (.int 7) :=
  save_extra_precedence collidingState "growth_stage" (.int 7)
    (by simp [collidingState]) (by rfl)

/-- C4: for a record whose load succeeds (so `growth_stage` lands in `[0,3]`
and `day_count ≥ 1`), saving the loaded state and loading again — even on a
different day — returns the identical state: the three known fields and every
unknown `extra` field round-trip unchanged. The record's keys are unique
(it is a parsed JSON object) and today's date is a real calendar date. -/
theorem load_save_load_roundtrip (raw : Obj) (today t2 : Date) (s : PlantState)
    (hnd : (raw.map Prod.fst).Nodup) (ht : today.valid = true)
    (h : loadRecord raw today = some s) :
    loadRecord (save s) t2 = some s := by
  obtain ⟨g, d, hg, hd, rfl⟩ := loadRecord_eq h
  apply save_load_inverse
  · exact healedLastOpened_valid ht
  · show (0 : Int) ≤ max 0 (min g 3)
    omega
  · show max 0 (min g 3) ≤ (3 : Int)
    omega
  · show (1 : Int) ≤ max 1 d
    omega
  · exact nodup_extraOf hnd
  · intro kv hkv
    exact extraOf_not_known hkv

def rawW : Obj :=
  [("last_opened", Json.str "2024-03-01"), ("growth_stage", Json.int 2),
   ("day_count", Json.int 3), ("color", Json.str "red")]

def sW : PlantState := ⟨⟨2024, 3, 1⟩, 2, 3, [("color", Json.str "red")]⟩

/-- Witness for C4 at a concrete input: a record with one unknown field
round-trips through save and a later load. -/
theorem load_save_load_roundtrip_witness :
    loadRecord (save sW) d1 = some sW :=
  load_save_load_roundtrip rawW d0 d1 sW (by decide) (by decide) (by rfl)

/-! ### Claim theorems: the main scenario -/

/-- The stored record of the 5-idle-days scenario. -/
def scenarioRecord (lo : Date) : Obj :=
  [("last_opened", Json.str (formatDate lo)), ("growth_stage", Json.int 0),
   ("day_count", Json.int 1)]

/-- C7: with a stored record whose `last_opened` is 5 days before today,
`growth_stage` 0 and `day_count` 1, a run without the water flag persists
`growth_stage` 3 and `day_count` 6, and emits `days_idle = 5`,
`is_wilted = true`. -/
theorem idle_five_days_scenario (today lo : Date) (hlo : lo.valid = true)
    (hdiff : dateDiff today lo = 5) :
    ∃ rec resp,
      runMain (.content (.obj (scenarioRecord lo))) today false = some (rec, resp) ∧
      lookup "growth_stage" rec = some (.int 3) ∧
      lookup "day_count" rec = some (.int 6) ∧
      resp.days_idle = 5 ∧ resp.is_wilted = true := by
  have hheal : healedLastOpened (scenarioRecord lo) today = lo := by
    show (parseDate (formatDate lo)).getD today = lo
    rw [parse_format hlo]
    rfl
  have hload : load (.content (.obj (scenarioRecord lo))) today =
      some ⟨lo, 0, 1, []⟩ := by
    show loadRecord (scenarioRecord lo) today = _
    rw [show loadRecord (scenarioRecord lo) today =
      some ⟨healedLastOpened (scenarioRecord lo) today, 0, 1, []⟩ from rfl, hheal]
  have hrun : runMain (.content (.obj (scenarioRecord lo))) today false =
      some (save ⟨today, 3, 6, []⟩, ⟨"bloom", 3, 6, "assets/plant_bloom.png", true, 5⟩) := by
    rw [runMain, hload]
    dsimp only
    rw [hdiff]
    norm_num [advance_days, MAX_STAGE_INDEX]
    rfl
  exact ⟨_, _, hrun, by rfl, by rfl, rfl, rfl⟩

/-- Witness for C7 at concrete dates: today 2026-10-12, last opened
2026-10-07. -/
theorem idle_five_days_scenario_witness :
    ∃ rec resp,
      runMain (.content (.obj (scenarioRecord ⟨2026, 10, 7⟩))) ⟨2026, 10, 12⟩ false =
        some (rec, resp) ∧
      lookup "growth_stage" rec = some (.int 3) ∧
      lookup "day_count" rec = some (.int 6) ∧
      resp.days_idle = 5 ∧ resp.is_wilted = true :=
  idle_five_days_scenario ⟨2026, 10, 12⟩ ⟨2026, 10, 7⟩ (by decide) (by decide)

/-! ### Claim theorems: load error handling -/

/-- C2 counterexample: a present, parseable record whose `growth_stage` holds
the non-numeric string `"abc"` makes `load()` raise (the bare `int(...)` call
is outside any handler), rather than defaulting the field — so the run
terminates with a non-zero exit status. -/
theorem load_nonnumeric_field_raises :
    loadRecord [("growth_stage", .str "abc")] d0 = none := rfl

/-- C2 amended: `loadRecord` fails exactly when Python's `int()` cannot coerce
the stored `growth_stage` or `day_count` value (and then the uncaught
exception aborts the run); a malformed `last_opened` alone never fails — it
self-heals to today's date. -/
theorem load_malformed_fields (raw : Obj) (today : Date) :
    (loadRecord raw today = none ↔
      pyInt (getD raw "growth_stage" (.int 0)) = none ∨
        ∃ g, pyInt (getD raw "growth_stage" (.int 0)) = some g ∧
          pyInt (getD raw "day_count" (.int (max 1 (g + 1)))) = none) ∧
    (∀ ls, lookup "last_opened" raw = some (.str ls) → parseDate ls = none →
      ∀ s, loadRecord raw today = some s → s.last_opened = today) := by
  constructor
  · rcases hg : pyInt (getD raw "growth_stage" (.int 0)) with _ | g
    · simp only [loadRecord, hg]
      simp
    · rcases hd : pyInt (getD raw "day_count" (.int (max 1 (g + 1)))) with _ | d <;>
        simp only [loadRecord, hg, hd] <;> simp [hd]
  · intro ls hlo hparse s hs
    obtain ⟨g, d, -, -, rfl⟩ := loadRecord_eq hs
    simp only [healedLastOpened, hlo, hparse, Option.getD_none]

/-- Witness for the amended C2 at a concrete input: a record whose
`last_opened` is the unparseable string `"not-a-date"` loads fine, with
`last_opened` healed to today. -/
theorem load_malformed_fields_witness :
    (⟨d1, 0, 1, []⟩ : PlantState).last_opened = d1 :=
  (load_malformed_fields [("last_opened", .str "not-a-date")] d1).2
    "not-a-date" (by rfl) (by rfl) ⟨d1, 0, 1, []⟩ (by rfl)

end BloomBuddy
